import Mathlib

/-!
Shallow embedding of `swingutils/threads.py` (lloja/swingutils): the
`RunnableWrapper`/`AsyncResult` deferred-result machinery, the
`TaskExecutor` hook points and submission methods, and the Swing
Event-Dispatch-Thread (EDT) dispatch helpers (`invokeLater`).

Python objects are modelled as explicit state records; methods become
functions from state to (result, state).  A Python callable applied to its
captured positional arguments and keyword mapping either returns a value or
raises an exception, modelled as `Except`.  `hasattr(self, '_retval')` /
`hasattr(self, '_exception')` are modelled by `Option` fields (`none` =
attribute absent).  The `threading.Event` is a `Bool` (`false` = unset).
-/

namespace Swingutils

/-- Exception values as the embedded code distinguishes them: a payload of
type `E` plus whether the value is a `java.lang.Throwable` (which
`AsyncResult.get` wraps directly in an `ExecutionException`) or a plain
Python exception (wrapped through its `unicode(...)` representation). -/
structure PyExc (E : Type) where
  isThrowable : Bool
  payload : E
  deriving DecidableEq, Repr

/-- What `ExecutionException` carries in `AsyncResult.get`: either the
original Throwable directly (`ExecutionException(self._exception)`) or the
stringified representation of a non-Throwable
(`ExecutionException(unicode(self._exception), None)`); the representation
is modelled as the payload of the original exception. -/
inductive WrappedExc (E : Type) where
  | direct (e : PyExc E)
  | stringified (r : E)
  deriving DecidableEq, Repr

/-- Wrapping performed by `AsyncResult.get` when `_exception` is present. -/
def wrapExc {E : Type} (e : PyExc E) : WrappedExc E :=
  if e.isThrowable then .direct e else .stringified e.payload

/-- A wrapped exception contains the original failure either by identity
(the Throwable itself) or by equivalent representation (its payload). -/
def WrappedExc.containsOriginal {E : Type} (w : WrappedExc E) (e : PyExc E) : Prop :=
  match w with
  | .direct e2 => e2 = e
  | .stringified r => r = e.payload

/-- A Python callable together with the call protocol used throughout the
module: applied to a positional-argument tuple and a keyword-argument
mapping, it either returns a `V` or raises a `PyExc E`. -/
abbrev PyCallable (V E : Type) := List V → List (String × V) → Except (PyExc E) V

/-- State of an `AsyncResult` instance: the fields the source methods read
and write.  `func` is `_func` (`none` once cleared), `args`/`kwargs` are the
captured arguments, `name`/`beforeCallback`/`afterCallback` are the values
forwarded by `__init__` (callbacks identified by id, `none` = `None`),
`retval`/`exception` model `hasattr(self, '_retval')` /
`hasattr(self, '_exception')`, and `event` is the `threading.Event`. -/
structure AsyncResult (V E : Type) where
  func : Option (PyCallable V E)
  args : List V
  kwargs : List (String × V)
  name : Option String
  beforeCallback : Option Nat
  afterCallback : Option Nat
  retval : Option V
  exception : Option (PyExc E)
  event : Bool

/-- `AsyncResult.isDone`: `hasattr(self, '_retval') or hasattr(self, '_exception')`. -/
def AsyncResult.isDone {V E : Type} (s : AsyncResult V E) : Bool :=
  s.retval.isSome || s.exception.isSome

/-- `AsyncResult.isCancelled`: `return self._func is None`. -/
def AsyncResult.isCancelled {V E : Type} (s : AsyncResult V E) : Bool :=
  s.func.isNone

/-- `AsyncResult.run`: if `_func` is cleared, return immediately; otherwise
call it, storing `_retval` on normal return or `_exception` on a raise
(the `traceback.print_exc()` diagnostic has no state effect), then clear
`_func` and set `_event`. -/
def AsyncResult.run {V E : Type} (s : AsyncResult V E) : AsyncResult V E :=
  match s.func with
  | none => s
  | some f =>
    match f s.args s.kwargs with
    | .ok v => { s with retval := some v, func := none, event := true }
    | .error e => { s with exception := some e, func := none, event := true }

/-- `AsyncResult.cancel(mayInterruptIfRunning)`: returns `False` when
already done, otherwise clears `_func` and returns `True`; `_event` is
never touched. -/
def AsyncResult.cancel {V E : Type} (s : AsyncResult V E)
    (mayInterruptIfRunning : Bool) : Bool × AsyncResult V E :=
  if s.isDone then (false, s) else (true, { s with func := none })

/-- Outcome of a call to `AsyncResult.get`. -/
inductive GetResult (V E : Type) where
  | value (v : V)
  | executionException (w : WrappedExc E)
  | cancellationException
  deriving DecidableEq, Repr

/-- `AsyncResult.get(timeout, unit)`: the blocking `self._event.wait(timeout)`
is modelled by evaluating the body at the state observed when the wait
returns (because `_event` was set or the timeout expired).  If `_exception`
is present it is wrapped in an `ExecutionException`; else if `_retval` is
absent a `CancellationException` is raised; else `_retval` is returned.
The method assigns nothing to the object, so the state is unchanged. -/
def AsyncResult.get {V E : Type} (s : AsyncResult V E) :
    GetResult V E × AsyncResult V E :=
  (match s.exception with
   | some e => .executionException (wrapExc e)
   | none =>
     match s.retval with
     | none => .cancellationException
     | some v => .value v,
   s)

/-- Number of parameters `RunnableWrapper.__init__` declares besides `self`:
`func`, `args`, `kwargs`. -/
def runnableWrapperInitParamCount : Nat := 3

/-- Number of positional arguments `AsyncResult.__init__` passes to
`RunnableWrapper.__init__` besides `self`: `func`, `args`, `kwargs`,
`name`, `beforeCallback`, `afterCallback`. -/
def asyncResultSuperArgCount : Nat := 6

/-- Result of attempting to construct an object. -/
inductive InitResult (V E : Type) where
  | ok (s : AsyncResult V E)
  | typeError

/-- `AsyncResult.__init__(func, args, kwargs, name, beforeCallback,
afterCallback)`: delegates to `RunnableWrapper.__init__` with six positional
arguments.  Per Python call semantics the delegated call raises `TypeError`
unless the argument count matches the declared parameter count; only then
would the fields be stored and the unset `_event` created. -/
def asyncResultInit {V E : Type} (f : PyCallable V E) (args : List V)
    (kwargs : List (String × V)) (name : Option String)
    (beforeCallback afterCallback : Option Nat) : InitResult V E :=
  if asyncResultSuperArgCount = runnableWrapperInitParamCount then
    .ok { func := some f, args := args, kwargs := kwargs, name := name,
          beforeCallback := beforeCallback, afterCallback := afterCallback,
          retval := none, exception := none, event := false }
  else
    .typeError

/-- `TaskExecutor.runTask(func, *args, **kwargs)`: constructs
`AsyncResult(func, args, kwargs)` (which is then handed to the pool). -/
def runTask {V E : Type} (f : PyCallable V E) (args : List V)
    (kwargs : List (String × V)) : InitResult V E :=
  asyncResultInit f args kwargs none none none

/-- A recorded hook invocation: which callback ran (by id), the worker
thread it received, and the runnable it received. -/
inductive HookEvent (V E : Type) where
  | call (hookId : Nat) (thread : Nat) (runnable : AsyncResult V E)

/-- `TaskExecutor.beforeExecute(thread, runnable)`: the pool-wide
`beforeCallback` if set, then the runnable's own `beforeCallback` if set,
each applied to `(thread, runnable)`; the trace lists the calls in order. -/
def beforeExecute {V E : Type} (poolBeforeCallback : Option Nat) (thread : Nat)
    (runnable : AsyncResult V E) : List (HookEvent V E) :=
  (match poolBeforeCallback with
   | some h => [HookEvent.call h thread runnable]
   | none => []) ++
  (match runnable.beforeCallback with
   | some h => [HookEvent.call h thread runnable]
   | none => [])

/-- State of a plain `RunnableWrapper` (the futureless runnable queued by
`invokeLater`). -/
structure RunnableWrapper (V E : Type) where
  func : PyCallable V E
  args : List V
  kwargs : List (String × V)

/-- `RunnableWrapper.run`: calls `self._func(*self._args, **self._kwargs)`,
discarding the return value; an exception raised by the call escapes `run`
to whichever thread executes the runnable. -/
def RunnableWrapper.run {V E : Type} (w : RunnableWrapper V E) :
    Except (PyExc E) Unit :=
  match w.func w.args w.kwargs with
  | .ok _ => .ok ()
  | .error e => .error e

/-- Effect of one call to an `invokeLater`-wrapped function. -/
inductive InvokeLaterEffect (V E : Type) where
  | ranDirectly (callerOutcome : Except (PyExc E) Unit)
  | queued (w : RunnableWrapper V E)

/-- The wrapper produced by `invokeLater(func)`: when the current thread is
the EDT, `func(*args, **kwargs)` is called directly — the return value is
discarded, but the call is not guarded, so a raised exception propagates to
the caller; otherwise a `RunnableWrapper` is built and queued via
`SwingUtilities.invokeLater` and the wrapper returns normally. -/
def invokeLaterWrapper {V E : Type} (onEDT : Bool) (f : PyCallable V E)
    (args : List V) (kwargs : List (String × V)) : InvokeLaterEffect V E :=
  if onEDT then
    .ranDirectly (match f args kwargs with
      | .ok _ => .ok ()
      | .error e => .error e)
  else
    .queued { func := f, args := args, kwargs := kwargs }

/-- What the caller of the wrapped function observes: the direct branch's
outcome, or a normal return when the work was merely queued. -/
def InvokeLaterEffect.callerObserves {V E : Type} :
    InvokeLaterEffect V E → Except (PyExc E) Unit
  | .ranDirectly o => o
  | .queued _ => .ok ()

/-- Python `dict` lookup `d.get(k)` on an association-list model. -/
def dictLookup {W : Type} (k : String) : List (String × W) → Option W
  | [] => none
  | a :: t => if a.1 == k then some a.2 else dictLookup k t

/-- Removal of a key, as `dict.pop` leaves the mapping. -/
def dictErase {W : Type} (k : String) :
    List (String × W) → List (String × W)
  | [] => []
  | a :: t => if a.1 == k then dictErase k t else a :: dictErase k t

/-- `kwargs.pop(k, None)`: the stored value (or `None`) together with the
mapping without the key. -/
def dictPop {W : Type} (k : String) (d : List (String × W)) :
    Option W × List (String × W) :=
  (dictLookup k d, dictErase k d)

/-- `d[k] = v`: overwrites any existing entry for `k`. -/
def dictSet {W : Type} (k : String) (v : W) (d : List (String × W)) :
    List (String × W) :=
  dictErase k d ++ [(k, v)]

/-- The keyword handling of `TaskExecutor.runNamedTask(func, name, *args,
**kwargs)`: `beforeCallback = kwargs.pop('beforeCallback', None)`, then
`afterCallback = kwargs.pop('afterCallback', None)`; the remaining mapping
is what the `AsyncResult` captures for the callable. -/
structure NamedTaskCall (W : Type) where
  poppedBefore : Option W
  poppedAfter : Option W
  callKwargs : List (String × W)

/-- Keyword-popping step of `TaskExecutor.runNamedTask`. -/
def runNamedTaskPop {W : Type} (kwargs : List (String × W)) : NamedTaskCall W :=
  let p1 := dictPop "beforeCallback" kwargs
  let p2 := dictPop "afterCallback" p1.2
  { poppedBefore := p1.1, poppedAfter := p2.1, callKwargs := p2.2 }

/-- The keyword mapping the inner wrapper of
`TaskExecutor.namedTask(name, beforeCallback, afterCallback)` passes to
`runNamedTask`: it assigns `kwargs['beforeCallback'] = beforeCallback` and
then `kwargs['afterCallback'] = afterCallback`, overwriting any
caller-supplied entries. -/
def namedTaskKwargs {W : Type} (beforeCallback afterCallback : W)
    (kwargs : List (String × W)) : List (String × W) :=
  dictSet "afterCallback" afterCallback
    (dictSet "beforeCallback" beforeCallback kwargs)

/-- A freshly constructed holder (as the intended constructor would build
it) for a callable that returns `7`. -/
def sampleOk7 : AsyncResult Nat Nat :=
  { func := some (fun _ _ => .ok 7), args := [], kwargs := [], name := none,
    beforeCallback := none, afterCallback := none, retval := none,
    exception := none, event := false }

/-- A freshly constructed holder for a callable that raises the Throwable
with payload `42`. -/
def sampleRaise : AsyncResult Nat Nat :=
  { func := some (fun _ _ => .error ⟨true, 42⟩), args := [], kwargs := [],
    name := none, beforeCallback := none, afterCallback := none,
    retval := none, exception := none, event := false }

/-- C1: the claim says constructing a Deferred Result (as `runTask` does)
succeeds for every callable, positional tuple and keyword mapping, yielding
a Pending instance.  In the code, `AsyncResult.__init__` forwards six
positional arguments to `RunnableWrapper.__init__`, which declares three,
so every construction raises `TypeError` instead. -/
theorem C1_runTask_typeError {V E : Type} (f : PyCallable V E)
    (args : List V) (kwargs : List (String × V)) :
    runTask f args kwargs = InitResult.typeError := rfl

/-- C3: after `run()` completes with Value `7`, `isCancelled()` nevertheless
returns `true`: `run()` clears `_func` on every completed path and
`isCancelled()` tests exactly `_func is None`.  This contradicts the claim
that `isCancelled()` is `false` after a Value or Failure outcome. -/
theorem C3_isCancelled_true_after_value :
    (sampleOk7.run).retval = some 7 ∧ (sampleOk7.run).isCancelled = true :=
  ⟨rfl, rfl⟩

/-- Sample runnable with a per-task hook id `2`, for exercising
`beforeExecute`. -/
def sampleHooked : AsyncResult Nat Nat :=
  { func := some (fun _ _ => .ok 7), args := [], kwargs := [], name := some "t",
    beforeCallback := some 2, afterCallback := none, retval := none,
    exception := none, event := false }

/-- C2: `beforeExecute` calls the pool-wide `beforeCallback` first when it is
set, then the unit's own hook when it is set, each receiving the worker
thread and the runnable; a unit with no per-task hook causes no additional
call, and no hooks at all cause no call. -/
theorem C2_beforeExecute_hooks {V E : Type} (pb : Option Nat) (t : Nat)
    (r : AsyncResult V E) :
    (∀ hp ht, pb = some hp → r.beforeCallback = some ht →
      beforeExecute pb t r = [HookEvent.call hp t r, HookEvent.call ht t r]) ∧
    (∀ hp, pb = some hp → r.beforeCallback = none →
      beforeExecute pb t r = [HookEvent.call hp t r]) ∧
    (∀ ht, pb = none → r.beforeCallback = some ht →
      beforeExecute pb t r = [HookEvent.call ht t r]) ∧
    (pb = none → r.beforeCallback = none → beforeExecute pb t r = []) := by
  refine ⟨?_, ?_, ?_, ?_⟩ <;>
    intro _ <;> simp_all [beforeExecute]

/-- C2 witness: with pool-wide hook `1`, thread `0` and the sample runnable
carrying per-task hook `2`, the trace is exactly pool hook then task hook. -/
theorem C2_witness :
    beforeExecute (some 1) 0 sampleHooked =
      [HookEvent.call 1 0 sampleHooked, HookEvent.call 2 0 sampleHooked] :=
  (C2_beforeExecute_hooks (some 1) 0 sampleHooked).1 1 2 rfl rfl

/-- C4 counterexample: `sampleOk7` is pending and was never cancelled (its
work unit is still present), yet when `get()`'s wait times out the call
raises `CancellationException` — the very same condition reported for a
cancelled unit — not a distinct timeout condition. -/
theorem C4_counterexample :
    sampleOk7.isCancelled = false ∧
    (sampleOk7.get).1 = GetResult.cancellationException ∧
    (((sampleOk7.cancel false).2).get).1 = GetResult.cancellationException :=
  ⟨rfl, rfl, rfl⟩

/-- C4 amended: when `get()`'s wait expires before the unit has finished and
the unit was not cancelled, the call raises `CancellationException`, the
same condition as for a cancelled unit (timeout and cancellation are not
distinguishable); the caller may retry `get()` later and, once `run()` has
completed normally, the retried call returns the value. -/
theorem C4_timeout_conflated_with_cancel {V E : Type} (s : AsyncResult V E)
    (f : PyCallable V E) (v : V) (hfunc : s.func = some f)
    (hr : s.retval = none) (he : s.exception = none)
    (hv : f s.args s.kwargs = .ok v) :
    (s.get).1 = GetResult.cancellationException ∧
    ((s.run).get).1 = GetResult.value v := by
  constructor
  · simp [AsyncResult.get, hr, he]
  · simp [AsyncResult.run, AsyncResult.get, hfunc, hv, he]

/-- C4 witness: `sampleOk7` is pending with a callable returning `7`;
`get()` before `run()` reports `CancellationException` and after `run()`
returns `7`. -/
theorem C4_witness :
    (sampleOk7.get).1 = GetResult.cancellationException ∧
    ((sampleOk7.run).get).1 = GetResult.value 7 :=
  C4_timeout_conflated_with_cancel sampleOk7 (fun _ _ => .ok 7) 7
    rfl rfl rfl rfl

/-- A callable that raises the plain (non-Throwable) exception with payload
`13`. -/
def raiseBoom : PyCallable Nat Nat := fun _ _ => .error ⟨false, 13⟩

/-- C5: calling an `invokeLater`-wrapped callable that raises the plain
exception with payload `13` while on the EDT: the failure is not discarded
but observed by the caller, contradicting the claim (and the source's own
docstring, which says any raised exception is always discarded).  On the
queued path the caller observes a normal return. -/
theorem C5_direct_branch_propagates_failure :
    (invokeLaterWrapper true raiseBoom [] []).callerObserves =
      Except.error ⟨false, 13⟩ ∧
    (invokeLaterWrapper false raiseBoom [] []).callerObserves =
      Except.ok () :=
  ⟨rfl, rfl⟩

/-- C6: for every Deferred Result whose work unit is present and whose
outcome is still pending when `run()` is invoked, after `run()` exactly one
of {`_retval`, `_exception`} is set, and subsequent `get()` calls leave the
state (hence the outcome) unchanged. -/
theorem C6_single_outcome {V E : Type} (s : AsyncResult V E)
    (f : PyCallable V E) (hfunc : s.func = some f) (hr : s.retval = none)
    (he : s.exception = none) :
    (((s.run).retval.isSome ∧ (s.run).exception = none) ∨
      ((s.run).retval = none ∧ (s.run).exception.isSome)) ∧
    ((s.run).get).2 = s.run := by
  refine ⟨?_, rfl⟩
  cases hcall : f s.args s.kwargs with
  | ok v => left; simp [AsyncResult.run, hfunc, hcall, he]
  | error e => right; simp [AsyncResult.run, hfunc, hcall, hr]

/-- C6 witness: running `sampleOk7` sets exactly the Value side of the
outcome, and `get()` does not change the state. -/
theorem C6_witness :
    (((sampleOk7.run).retval.isSome ∧ (sampleOk7.run).exception = none) ∨
      ((sampleOk7.run).retval = none ∧ (sampleOk7.run).exception.isSome)) ∧
    ((sampleOk7.run).get).2 = sampleOk7.run :=
  C6_single_outcome sampleOk7 (fun _ _ => .ok 7) rfl rfl rfl

/-- Helper: the wrapping `get` applies to a stored exception always contains
the original failure, by identity for Throwables and by equivalent
representation otherwise. -/
theorem wrapExc_containsOriginal {E : Type} (e : PyExc E) :
    (wrapExc e).containsOriginal e := by
  unfold wrapExc
  by_cases h : e.isThrowable <;>
    simp [h, WrappedExc.containsOriginal]

/-- C7: for every pending unit whose callable raises the failure `e`,
`run()` captures it in `_exception` (setting no `_retval`), and a
subsequent `get()` raises an `ExecutionException` wrapping it, containing
the original failure by identity or equivalent representation. -/
theorem C7_failure_roundtrip {V E : Type} (s : AsyncResult V E)
    (f : PyCallable V E) (e : PyExc E) (hfunc : s.func = some f)
    (hr : s.retval = none) (he : s.exception = none)
    (hraise : f s.args s.kwargs = .error e) :
    (s.run).exception = some e ∧ (s.run).retval = none ∧
    ((s.run).get).1 = GetResult.executionException (wrapExc e) ∧
    (wrapExc e).containsOriginal e := by
  refine ⟨?_, ?_, ?_, wrapExc_containsOriginal e⟩ <;>
    simp [AsyncResult.run, AsyncResult.get, hfunc, hraise, hr]

/-- C7 witness: `sampleRaise` raises the Throwable with payload `42`;
after `run()`, `get()` raises an `ExecutionException` wrapping it. -/
theorem C7_witness :
    (sampleRaise.run).exception = some ⟨true, 42⟩ ∧
    (sampleRaise.run).retval = none ∧
    ((sampleRaise.run).get).1 =
      GetResult.executionException (wrapExc ⟨true, 42⟩) ∧
    (wrapExc (⟨true, 42⟩ : PyExc Nat)).containsOriginal ⟨true, 42⟩ :=
  C7_failure_roundtrip sampleRaise (fun _ _ => .error ⟨true, 42⟩) ⟨true, 42⟩
    rfl rfl rfl rfl

/-- C8: for every Deferred Result that is not yet done, `cancel()` returns
`true`, `isCancelled()` thereafter returns `true`, the signal is left
exactly as it was, and every subsequent `run()` on the cancelled instance
is a no-op that leaves `_retval` unset. -/
theorem C8_cancel_before_run {V E : Type} (s : AsyncResult V E) (b : Bool)
    (hr : s.retval = none) (he : s.exception = none) :
    (s.cancel b).1 = true ∧
    ((s.cancel b).2).isCancelled = true ∧
    ((s.cancel b).2).event = s.event ∧
    ((s.cancel b).2).run = (s.cancel b).2 ∧
    (∀ n : Nat, AsyncResult.run^[n] ((s.cancel b).2) = (s.cancel b).2) ∧
    (((s.cancel b).2).run).retval = none := by
  have hnd : s.isDone = false := by
    simp [AsyncResult.isDone, hr, he]
  have hc : s.cancel b = (true, { s with func := none }) := by
    simp [AsyncResult.cancel, hnd]
  have hfix : AsyncResult.run { s with func := none } =
      { s with func := none } := by
    simp [AsyncResult.run]
  refine ⟨by simp [hc], by simp [hc, AsyncResult.isCancelled], by simp [hc],
    by simp [hc, hfix], ?_, by simp [hc, AsyncResult.run, hr]⟩
  intro n
  simp only [hc]
  exact Function.iterate_fixed hfix n

/-- C8 witness: cancelling the pending `sampleOk7` returns `true`, leaves
the signal unset, marks it cancelled, and makes `run()` a no-op. -/
theorem C8_witness :
    (sampleOk7.cancel false).1 = true ∧
    ((sampleOk7.cancel false).2).isCancelled = true ∧
    ((sampleOk7.cancel false).2).event = sampleOk7.event ∧
    ((sampleOk7.cancel false).2).run = (sampleOk7.cancel false).2 :=
  by
  have h := C8_cancel_before_run sampleOk7 false rfl rfl
  exact ⟨h.1, h.2.1, h.2.2.1, h.2.2.2.1⟩

/-- C9: for every Deferred Result whose outcome is already terminal,
`cancel()` returns `false` and leaves the whole state unchanged, so a later
`get()` still reports the stored value or failure. -/
theorem C9_cancel_after_done {V E : Type} (s : AsyncResult V E) (b : Bool)
    (hd : s.isDone = true) :
    (s.cancel b).1 = false ∧ (s.cancel b).2 = s ∧
    (((s.cancel b).2).get).1 = (s.get).1 := by
  refine ⟨?_, ?_, ?_⟩ <;> simp [AsyncResult.cancel, hd]

/-- C9 witness: cancelling the completed `sampleOk7.run` returns `false`
and does not disturb the stored Value, which `get()` still returns. -/
theorem C9_witness :
    ((sampleOk7.run).cancel true).1 = false ∧
    ((sampleOk7.run).cancel true).2 = sampleOk7.run ∧
    ((((sampleOk7.run).cancel true).2).get).1 = ((sampleOk7.run).get).1 :=
  C9_cancel_after_done sampleOk7.run true rfl

/-- Helper: looking up a key right after erasing it finds nothing. -/
theorem dictLookup_erase_self {W : Type} (k : String)
    (d : List (String × W)) : dictLookup k (dictErase k d) = none := by
  induction d with
  | nil => rfl
  | cons a t ih =>
    by_cases h : a.1 == k
    · simpa [dictErase, h] using ih
    · simpa [dictLookup, dictErase, h] using ih

/-- Helper: erasing one key does not change lookups of a different key. -/
theorem dictLookup_erase_of_ne {W : Type} (k k2 : String)
    (h : (k == k2) = false) (d : List (String × W)) :
    dictLookup k (dictErase k2 d) = dictLookup k d := by
  induction d with
  | nil => rfl
  | cons a t ih =>
    by_cases ha : a.1 == k2
    · have hak : (a.1 == k) = false := by
        have h2 : a.1 = k2 := eq_of_beq ha
        subst h2
        exact beq_eq_false_iff_ne.2 fun hkk =>
          (beq_eq_false_iff_ne.1 h) hkk.symm
      simpa [dictLookup, dictErase, ha, hak] using ih
    · by_cases hk : a.1 == k
      · simp [dictLookup, dictErase, ha, hk]
      · simpa [dictLookup, dictErase, ha, hk] using ih

/-- Helper: looking up a key in a mapping extended on the right falls
through to the extension exactly when the key is absent on the left. -/
theorem dictLookup_append_self {W : Type} (k : String) (v : W)
    (d : List (String × W)) (hnone : dictLookup k d = none) :
    dictLookup k (d ++ [(k, v)]) = some v := by
  induction d with
  | nil => simp [dictLookup]
  | cons a t ih =>
    by_cases h : a.1 == k
    · simp [dictLookup, h] at hnone
    · simp only [dictLookup, h] at hnone
      simpa [dictLookup, h] using ih hnone

/-- Helper: after `d[k] = v`, looking up `k` yields `v`. -/
theorem dictLookup_set_self {W : Type} (k : String) (v : W)
    (d : List (String × W)) : dictLookup k (dictSet k v d) = some v :=
  dictLookup_append_self k v (dictErase k d) (dictLookup_erase_self k d)

/-- Helper: after `d[k2] = v`, lookups of a different key are unchanged. -/
theorem dictLookup_set_of_ne {W : Type} (k k2 : String) (v : W)
    (h : (k == k2) = false) (d : List (String × W)) :
    dictLookup k (dictSet k2 v d) = dictLookup k d := by
  have h2k : (k2 == k) = false :=
    beq_eq_false_iff_ne.2 fun hkk => (beq_eq_false_iff_ne.1 h) hkk.symm
  have hmain : ∀ l : List (String × W),
      dictLookup k (l ++ [(k2, v)]) = dictLookup k l := by
    intro l
    induction l with
    | nil => simp [dictLookup, h2k]
    | cons a t ih =>
      by_cases ha : a.1 == k
      · simp [dictLookup, ha]
      · simpa [dictLookup, ha] using ih
  calc dictLookup k (dictSet k2 v d)
      = dictLookup k (dictErase k2 d) := hmain (dictErase k2 d)
    _ = dictLookup k d := dictLookup_erase_of_ne k k2 h d

/-- C10: the keyword names `beforeCallback` and `afterCallback` are
reserved.  `runNamedTask` pops both entries out of the keyword mapping
before the callable's `AsyncResult` is built, so the mapping the callable
receives never contains them (and the popped values become the per-task
hooks); `namedTask`'s inner wrapper unconditionally overwrites any
caller-supplied values for those two keys with the decorator's own hooks. -/
theorem C10_reserved_keyword_names {W : Type} (kwargs : List (String × W))
    (bc ac : W) :
    dictLookup "beforeCallback" (runNamedTaskPop kwargs).callKwargs = none ∧
    dictLookup "afterCallback" (runNamedTaskPop kwargs).callKwargs = none ∧
    (runNamedTaskPop kwargs).poppedBefore =
      dictLookup "beforeCallback" kwargs ∧
    dictLookup "beforeCallback" (namedTaskKwargs bc ac kwargs) = some bc ∧
    dictLookup "afterCallback" (namedTaskKwargs bc ac kwargs) = some ac := by
  refine ⟨?_, ?_, rfl, ?_, ?_⟩
  · have h := dictLookup_erase_of_ne "beforeCallback" "afterCallback"
      (by decide) (dictErase "beforeCallback" kwargs)
    simp only [runNamedTaskPop, dictPop]
    exact h.trans (dictLookup_erase_self "beforeCallback" kwargs)
  · simp only [runNamedTaskPop, dictPop]
    exact dictLookup_erase_self "afterCallback"
      (dictErase "beforeCallback" kwargs)
  · have h := dictLookup_set_of_ne "beforeCallback" "afterCallback" ac
      (by decide) (dictSet "beforeCallback" bc kwargs)
    simp only [namedTaskKwargs]
    exact h.trans (dictLookup_set_self "beforeCallback" bc kwargs)
  · simp only [namedTaskKwargs]
    exact dictLookup_set_self "afterCallback" ac
      (dictSet "beforeCallback" bc kwargs)
